import Mathlib

/-!
# Verification of the task_manager notification pipeline

A shallow embedding of the asynchronous notification pipeline of the
`task_manager` repository: the notification store (PostgreSQL repository
functions), the notification service, the Kafka notifier/consumer, the
Telegram sender formatting, and the scheduler jobs.  Strings are Lean
`String`s (Go strings), `time.Time` values are `Nat` timestamps, Go maps
`map[string]string` are association lists with overwrite-on-insert, and
fallible calls return `Except String`.  External systems (the SQL engine,
Kafka, the Telegram HTTP API, `encoding/json`, `google/uuid`) are modelled
by their contracts at the call boundary, as documented on each definition.
-/

namespace TaskManager

/-- Go `error` values, carrying the message (`internal/service`, `pkg/errors`). -/
abbrev GoErr := String

/-! ## Domain model (`internal/domain`, unnamed part_005) -/

/-- `domain.NotificationStatus` is a Go string type; the three constants. -/
def NotificationStatusUnread : String := "unread"

def NotificationStatusRead : String := "read"

def NotificationStatusDeleted : String := "deleted"

/-- `domain.NotificationType` constants (part_005). -/
def NotificationTypeTaskAssigned : String := "task_assigned"

def NotificationTypeTaskUpdated : String := "task_updated"

def NotificationTypeTaskCommented : String := "task_commented"

def NotificationTypeTaskDueSoon : String := "task_due_soon"

def NotificationTypeTaskOverdue : String := "task_overdue"

def NotificationTypeProjectMemberAdded : String := "project_member_added"

def NotificationTypeProjectUpdated : String := "project_updated"

def NotificationTypeDigest : String := "digest"

/-- `domain.Notification` (part_005).  `MetaData map[string]string` is an
association list (Go map reads see only key lookups; writes overwrite);
`CreatedAt time.Time` is a `Nat` timestamp, `ReadAt *time.Time` an
`Option Nat`. -/
structure Notification where
  id : String
  userId : String
  type : String
  title : String
  content : String
  status : String
  entityId : String
  entityType : String
  metaData : List (String × String)
  createdAt : Nat
  readAt : Option Nat
deriving DecidableEq, Repr

/-- `Notification.IsRead` (part_005). -/
def Notification.isRead (n : Notification) : Bool :=
  n.status == NotificationStatusRead

/-- `domain.NotificationResponse` (part_005): the notification minus its owner id. -/
structure NotificationResponse where
  id : String
  type : String
  title : String
  content : String
  status : String
  entityId : String
  entityType : String
  metaData : List (String × String)
  createdAt : Nat
  readAt : Option Nat
deriving DecidableEq, Repr

/-- `Notification.ToResponse` (part_005). -/
def Notification.toResponse (n : Notification) : NotificationResponse :=
  { id := n.id, type := n.type, title := n.title, content := n.content,
    status := n.status, entityId := n.entityId, entityType := n.entityType,
    metaData := n.metaData, createdAt := n.createdAt, readAt := n.readAt }

/-- `repository.NotificationSetting` (unnamed part_006). -/
structure NotificationSetting where
  userId : String
  notificationType : String
  emailEnabled : Bool
  webEnabled : Bool
  telegramEnabled : Bool
deriving DecidableEq, Repr

/-- `repository.NotificationFilter` (unnamed part_006).  `Limit`/`Offset`
are Go `int`s; every call site in the repository passes non-negative
values, so they are `Nat` here. -/
structure NotificationFilter where
  ids : List String
  types : List String
  status : Option String
  entityId : Option String
  entityType : Option String
  startDate : Option Nat
  endDate : Option Nat
  orderBy : Option String
  orderDir : Option String
  limit : Nat
  offset : Nat
deriving DecidableEq, Repr

/-- `messaging.NotificationEvent`, the wire envelope consumed by the
notifier and produced by the scheduler.  Its fields mirror
`domain.NotificationEvent` (src/internal/domain/task.go:412) and the JSON
envelope of spec §6. -/
structure NotificationEvent where
  userIds : List String
  title : String
  content : String
  type : String
  entityId : String
  entityType : String
  createdAt : Nat
  metaData : List (String × String)
deriving DecidableEq, Repr

/-- `domain.User`: only the fields the embedded pipeline code reads. -/
structure User where
  id : String
deriving DecidableEq, Repr

/-- `domain.Task`: the fields read by the scheduler and the notifier
enrichment.  `AssigneeID *string` and `DueDate *time.Time` are options. -/
structure Task where
  id : String
  title : String
  status : String
  priority : String
  projectId : String
  assigneeId : Option String
  createdBy : String
  dueDate : Option Nat
deriving DecidableEq, Repr

/-- `domain.Project`: the fields read by the notifier enrichment. -/
structure Project where
  id : String
  name : String
  status : String
deriving DecidableEq, Repr

/-- `repository.TelegramLink` (unnamed part_007): the fields the sender reads. -/
structure TelegramLink where
  userId : String
  telegramId : String
  chatId : String
deriving DecidableEq, Repr

/-! ## Go map writes

Go `m[k] = v` on a `map[string]string`, on the association-list model:
overwrite the binding if the key is present, append it otherwise. -/

def mapSet (m : List (String × String)) (k v : String) : List (String × String) :=
  if m.any (fun p => p.1 == k) then
    m.map (fun p => if p.1 == k then (k, v) else p)
  else
    m ++ [(k, v)]

/-- Go map read `m[k]` (comma-ok form): first binding for `k`. -/
def mapGet (m : List (String × String)) (k : String) : Option String :=
  (m.find? (fun p => p.1 == k)).map (·.2)

/-! ## Notification repository (`internal/repository/postgres/notification_repository.go`)

The `notifications` table is a `List Notification` in insertion order.  The
SQL engine itself is external: `INSERT` appends the row as given, `UPDATE
… WHERE id = $1` rewrites every row whose `id` matches (at most one under
the primary key), and `SELECT` filters.  Database-transport errors are not
modelled (every modelled call reaches the database); `sql.ErrNoRows` on
`QueryRow` is modelled by the first-match lookup returning `none`. -/

abbrev Store := List Notification

/-- `NotificationRepository.Create` (lines 32–74): INSERT of the given row. -/
def repoCreate (store : Store) (n : Notification) : Except GoErr Store :=
  .ok (store ++ [n])

/-- `NotificationRepository.GetByID` (lines 150–197): `SELECT … WHERE id = $1`
via `QueryRowx`; on `sql.ErrNoRows` the Go function returns `nil, nil`,
i.e. `.ok none`. -/
def repoGetByID (store : Store) (id : String) : Except GoErr (Option Notification) :=
  .ok (store.find? (fun n => n.id == id))

/-- `NotificationRepository.MarkAsRead` (lines 455–476):
`UPDATE notifications SET status = 'read', read_at = $1 WHERE id = $2`;
"notification not found" when no row was affected. -/
def repoMarkAsRead (store : Store) (id : String) (now : Nat) : Except GoErr Store :=
  if store.any (fun n => n.id == id) then
    .ok (store.map (fun n =>
      if n.id == id then { n with status := NotificationStatusRead, readAt := some now } else n))
  else
    .error "notification not found"

/-- `NotificationRepository.Delete` (lines 257–279):
`UPDATE notifications SET status = 'deleted' WHERE id = $1` — a soft
delete touching only `status`; "notification not found" when no row was
affected. -/
def repoDelete (store : Store) (id : String) : Except GoErr Store :=
  if store.any (fun n => n.id == id) then
    .ok (store.map (fun n =>
      if n.id == id then { n with status := NotificationStatusDeleted } else n))
  else
    .error "notification not found"

/-- The row predicate of the `WHERE` clause `GetUserNotifications`
(lines 282–353) builds: `user_id = $userID`, `status = filter.Status` when
set and `status != 'deleted'` otherwise, `type IN filter.Types` when
non-empty, `entity_id`/`entity_type` when set, and the date bounds.
(The zeroed `userFilter` passed to `buildWhereClause` contributes no
conditions.) -/
def notifWhere (userId : String) (f : NotificationFilter) (n : Notification) : Bool :=
  n.userId == userId
    && (match f.status with
        | some st => n.status == st
        | none => !(n.status == NotificationStatusDeleted))
    && (f.types.isEmpty || f.types.contains n.type)
    && (match f.entityId with
        | some e => n.entityId == e
        | none => true)
    && (match f.entityType with
        | some e => n.entityType == e
        | none => true)
    && (match f.startDate with
        | some d => decide (d ≤ n.createdAt)
        | none => true)
    && (match f.endDate with
        | some d => decide (n.createdAt ≤ d)
        | none => true)

/-- `ORDER BY` model: insertion sort on `created_at`.  `buildOrderClause`
defaults to `created_at DESC`; every repository call site either leaves
`OrderBy` unset or sets `created_at desc`, so sorting on `createdAt`
(descending unless `OrderDir` asks otherwise) covers the generated SQL at
all reachable filters.  Ties keep insertion order (SQL leaves them
unspecified). -/
def keepsBefore (desc : Bool) (m n : Notification) : Bool :=
  if desc then decide (m.createdAt ≥ n.createdAt) else decide (m.createdAt ≤ n.createdAt)

def insertByCreatedAt (desc : Bool) (n : Notification) :
    List Notification → List Notification
  | [] => [n]
  | m :: rest =>
    if keepsBefore desc m n then
      m :: insertByCreatedAt desc n rest
    else
      n :: m :: rest

def sortByCreatedAt (desc : Bool) (l : List Notification) : List Notification :=
  l.foldr (insertByCreatedAt desc) []

def orderDescending (f : NotificationFilter) : Bool :=
  match f.orderDir with
  | some d => !(d == "asc" || d == "ASC")
  | none => true

/-- `NotificationRepository.GetUserNotifications` (lines 282–408): the
filtered rows, ordered, then `LIMIT filter.Limit OFFSET filter.Offset` —
the limit/offset clause is always appended, so a zero `Limit` yields
`LIMIT 0`, which returns no rows. -/
def repoGetUserNotifications (store : Store) (userId : String)
    (f : NotificationFilter) : List Notification :=
  (((sortByCreatedAt (orderDescending f) (store.filter (notifWhere userId f)))).drop f.offset).take f.limit

/-- `NotificationRepository.CountUserNotifications` (lines 411–452): a
`COUNT(*)` under the same `WHERE` clause, without limit/offset. -/
def repoCountUserNotifications (store : Store) (userId : String)
    (f : NotificationFilter) : Nat :=
  (store.filter (notifWhere userId f)).length

/-- `NotificationRepository.GetUserUnreadCount` (lines 509–522). -/
def repoGetUserUnreadCount (store : Store) (userId : String) : Nat :=
  (store.filter (fun n => n.userId == userId && n.status == NotificationStatusUnread)).length

/-! ## Notification service (`internal/service/notification_service.go`)

Outcomes of a service call.  The Go services return `error`; dereferencing
a nil `*domain.Notification` is a runtime panic, recorded as `nilPanic`.
Cache invalidation (`unread_count:<userId>` deletes) is a side channel the
claims do not touch and is not modelled. -/

inductive SvcResult where
  | ok
  | svcErr (e : GoErr)
  | nilPanic
deriving DecidableEq, Repr

/-- `service.ErrNotificationNotFound`. -/
def ErrNotificationNotFound : GoErr := "notification not found"

/-- `NotificationService.GetByID` (lines 137–154): fetch, then ownership
check `notification.UserID != userID`.  When the repository reports no row
as `(nil, nil)`, the `err != nil` guard passes and the field access
`notification.UserID` dereferences a nil pointer. -/
def serviceGetByID (store : Store) (id userId : String) :
    SvcResult × Option NotificationResponse :=
  match repoGetByID store id with
  | .error _ => (.svcErr ErrNotificationNotFound, none)
  | .ok none => (.nilPanic, none)
  | .ok (some n) =>
    if !(n.userId == userId) then (.svcErr ErrNotificationNotFound, none)
    else (.ok, some n.toResponse)

/-- `NotificationService.MarkAsRead` (lines 157–196): fetch, ownership
check, early `return nil` when `notification.IsRead()`, otherwise the
repository update.  Same nil-dereference on a missing row as `GetByID`. -/
def serviceMarkAsRead (store : Store) (id userId : String) (now : Nat) :
    SvcResult × Store :=
  match repoGetByID store id with
  | .error _ => (.svcErr ErrNotificationNotFound, store)
  | .ok none => (.nilPanic, store)
  | .ok (some n) =>
    if !(n.userId == userId) then (.svcErr ErrNotificationNotFound, store)
    else if n.isRead then (.ok, store)
    else
      match repoMarkAsRead store id now with
      | .error e => (.svcErr e, store)
      | .ok store' => (.ok, store')

/-- `NotificationService.Delete` (lines 222–258): fetch, ownership check,
then the repository soft delete.  Same nil-dereference on a missing row. -/
def serviceDelete (store : Store) (id userId : String) : SvcResult × Store :=
  match repoGetByID store id with
  | .error _ => (.svcErr ErrNotificationNotFound, store)
  | .ok none => (.nilPanic, store)
  | .ok (some n) =>
    if !(n.userId == userId) then (.svcErr ErrNotificationNotFound, store)
    else
      match repoDelete store id with
      | .error e => (.svcErr e, store)
      | .ok store' => (.ok, store')

/-! ## Telegram sender (`internal/service/telegram_sender.go`) -/

/-- The characters `escapeMarkdown` (lines 222–244) escapes; the braces
are written as character escapes. -/
def markdownSpecials : List Char := "_*[]()~`>#+-=|\x7b\x7d.!".data

def isSpecial (c : Char) : Bool := markdownSpecials.contains c

/-- Character-level body of `escapeMarkdown`: the `strings.NewReplacer`
has only single-character patterns, so it maps each character
independently, prefixing specials with a backslash. -/
def escapeChars : List Char → List Char
  | [] => []
  | c :: rest => (if isSpecial c then ['\\', c] else [c]) ++ escapeChars rest

/-- `escapeMarkdown` (lines 222–244). -/
def escapeMarkdown (s : String) : String := ⟨escapeChars s.data⟩

/-- Models `CreatedAt.Format("02.01.2006 15:04")`: a rendering of the
timestamp, containing no user-supplied text. -/
def formatDateTime (t : Nat) : String := Nat.repr t

/-- Models `DueDate.Format(time.RFC3339)` in the scheduler. -/
def formatRFC3339 (t : Nat) : String := Nat.repr t

/-- The metadata lines of `formatMessage`'s `switch notification.Type`
(lines 106–176), per type and in source order: each entry is the literal
prefix printed before the escaped value, the metadata key looked up, and
the literal suffix printed after it. -/
def metaFields (ty : String) : List (String × String × String) :=
  if ty == NotificationTypeTaskAssigned then
    [("\n*Задача:* ", "task_title", ""),
     ("\n*Приоритет:* ", "priority", ""),
     ("\n*Срок выполнения:* ", "due_date", "")]
  else if ty == NotificationTypeTaskUpdated then
    [("\n*Задача:* ", "task_title", ""),
     ("\n*Статус:* ", "status", ""),
     ("\n*Исполнитель:* ", "assignee_name", "")]
  else if ty == NotificationTypeTaskCommented then
    [("\n*Задача:* ", "task_title", ""),
     ("\n*Автор комментария:* ", "user_name", ""),
     ("\n*Комментарий:* ", "comment_content", "")]
  else if ty == NotificationTypeTaskDueSoon then
    [("\n*Задача:* ", "task_title", ""),
     ("\n*Срок выполнения:* ", "due_date", ""),
     ("\n*Осталось времени:* ", "hours_left", " часов")]
  else if ty == NotificationTypeTaskOverdue then
    [("\n*Задача:* ", "task_title", ""),
     ("\n*Срок выполнения истек:* ", "due_date", "")]
  else if ty == NotificationTypeProjectMemberAdded then
    [("\n*Проект:* ", "project_name", ""),
     ("\n*Роль:* ", "role", "")]
  else if ty == NotificationTypeProjectUpdated then
    [("\n*Проект:* ", "project_name", ""),
     ("\n*Статус:* ", "status", "")]
  else []

/-- The `switch` body: appends one `prefix ++ escapeMarkdown value ++ suffix`
piece per metadata key that is present, in source order. -/
def metaExtras (meta : List (String × String)) :
    List (String × String × String) → String → String
  | [], acc => acc
  | f :: rest, acc =>
    match mapGet meta f.2.1 with
    | some v => metaExtras meta rest (acc ++ f.1 ++ escapeMarkdown v ++ f.2.2)
    | none => metaExtras meta rest acc

/-- `TelegramSender.formatMessage` (lines 99–182).  Go's `MetaData != nil`
guard is the emptiness check under the nil-map ≈ empty-map reading (an
empty map renders no extra lines either way).  The `user` argument is
taken and ignored, as in the source. -/
def formatMessage (n : Notification) (_u : User) : String :=
  let base := "*" ++ escapeMarkdown n.title ++ "*\n\n" ++ escapeMarkdown n.content ++ "\n"
  let withMeta :=
    if n.metaData.isEmpty then base
    else base ++ metaExtras n.metaData (metaFields n.type) ""
  withMeta ++ "\n\n_Отправлено: " ++ formatDateTime n.createdAt ++ "_"

/-- The user-supplied strings `formatMessage` renders for `n`: title,
content, and the metadata values actually looked up and found. -/
def renderedMetaValues (n : Notification) : List String :=
  if n.metaData.isEmpty then []
  else (metaFields n.type).filterMap (fun f => mapGet n.metaData f.2.1)

/-! ## Notifier service (`internal/service/notifier_service.go`) -/

/-- External lookups the notifier performs, one per repository
dependency; an `.error` models the corresponding Go call failing. -/
structure NotifierEnv where
  settingsOf : String → Except GoErr (List NotificationSetting)
  userOf : String → Except GoErr User
  taskOf : String → Except GoErr Task
  projectOf : String → Except GoErr Project
  telegramLinkOf : String → Except GoErr TelegramLink

/-- `uuid.New().String()` (google/uuid), indexed by a per-event call
counter: the library returns a fresh 36-character textual UUID; the
properties the code depends on — the string is never empty — carry over. -/
def uuidString (k : Nat) : String := "uuid-" ++ Nat.repr k

/-- A raw Kafka message value: either a payload `encoding/json` can
decode into a `NotificationEvent`, or one it cannot. -/
inductive RawMessage where
  | wellFormed (e : NotificationEvent)
  | malformed (raw : String)
deriving DecidableEq, Repr

/-- `json.Unmarshal(data, &event)` at notifier_service.go:123. -/
def unmarshalNotificationEvent : RawMessage → Except GoErr NotificationEvent
  | .wellFormed e => .ok e
  | .malformed raw => .error ("invalid JSON: " ++ raw)

/-- Observable effects of processing: rows handed to
`notificationRepo.Create`, recipients for which
`telegramSender.SendNotification` was invoked, and messages posted to the
Telegram HTTP API. -/
structure NotifierTrace where
  created : List Notification
  telegramInvocations : List String
  httpSends : List (String × String)
deriving DecidableEq, Repr

def NotifierTrace.empty : NotifierTrace := ⟨[], [], []⟩

def NotifierTrace.append (t₁ t₂ : NotifierTrace) : NotifierTrace :=
  ⟨t₁.created ++ t₂.created,
   t₁.telegramInvocations ++ t₂.telegramInvocations,
   t₁.httpSends ++ t₂.httpSends⟩

/-- `TelegramSender.SendNotification` (telegram_sender.go lines 55–71):
resolve the chat link, format, post.  The HTTP round trip is external;
a successful post is recorded, link-lookup failure returns the wrapped
error (the caller only logs it). -/
def sendNotification (env : NotifierEnv) (user : User) (n : Notification) :
    Except GoErr Unit × List (String × String) :=
  match env.telegramLinkOf user.id with
  | .error e => (.error ("failed to get Telegram link: " ++ e), [])
  | .ok link => (.ok (), [(link.chatId, formatMessage n user)])

/-- The enrichment block of `processNotificationEvent` (lines 182–206):
task lookups fill `task_title`/`task_status`/`project_id`, project lookups
fill `project_name`/`project_status`; lookup errors leave the record as
is. -/
def enrichNotification (env : NotifierEnv) (n : Notification) : Notification :=
  if n.entityType == "task" && !(n.entityId == "") then
    match env.taskOf n.entityId with
    | .ok task =>
      { n with metaData :=
          mapSet (mapSet (mapSet n.metaData "task_title" task.title)
            "task_status" task.status) "project_id" task.projectId }
    | .error _ => n
  else if n.entityType == "project" && !(n.entityId == "") then
    match env.projectOf n.entityId with
    | .ok project =>
      { n with metaData :=
          (mapSet (mapSet n.metaData "project_name" project.name)
            "project_status" project.status) }
    | .error _ => n
  else n

/-- The channel-flag scan of `processNotificationEvent` (lines 140–148):
`telegramEnabled` is taken from the first setting matching the event's
type (`break` after the first hit) and stays at the Go zero value `false`
when none matches. -/
def telegramEnabledFor (settings : List NotificationSetting) (ty : String) : Bool :=
  match settings.find? (fun s => s.notificationType == ty) with
  | some s => s.telegramEnabled
  | none => false

/-- One iteration of the per-recipient loop of `processNotificationEvent`
(lines 128–216): settings lookup (`continue` on error), Telegram flag from
the first matching setting, user lookup (`continue` on error), build the
record with a fresh UUID, send to Telegram when enabled, enrich, and
persist only under the source's `notification.ID == ""` guard.  The
counter indexes `uuid.New()` calls. -/
def processRecipient (env : NotifierEnv) (event : NotificationEvent)
    (acc : NotifierTrace × Nat) (userId : String) : NotifierTrace × Nat :=
  let (tr, ctr) := acc
  match env.settingsOf userId with
  | .error _ => (tr, ctr)
  | .ok settings =>
    let notificationType := event.type
    let telegramEnabled := telegramEnabledFor settings notificationType
    match env.userOf userId with
    | .error _ => (tr, ctr)
    | .ok user =>
      let notification : Notification :=
        { id := uuidString ctr, userId := userId, type := notificationType,
          title := event.title, content := event.content,
          status := NotificationStatusUnread, entityId := event.entityId,
          entityType := event.entityType, metaData := event.metaData,
          createdAt := event.createdAt, readAt := none }
      let tr₁ :=
        if telegramEnabled then
          { tr with
            telegramInvocations := tr.telegramInvocations ++ [userId],
            httpSends := tr.httpSends ++ (sendNotification env user notification).2 }
        else tr
      let enriched := enrichNotification env notification
      let tr₂ :=
        if enriched.id == "" then { tr₁ with created := tr₁.created ++ [enriched] }
        else tr₁
      (tr₂, ctr + 1)

/-- `NotifierService.processNotificationEvent` (lines 120–219). -/
def processNotificationEvent (env : NotifierEnv) (msg : RawMessage) :
    Except GoErr Unit × NotifierTrace :=
  match unmarshalNotificationEvent msg with
  | .error e => (.error ("failed to unmarshal notification event: " ++ e), .empty)
  | .ok event => (.ok (), (event.userIds.foldl (processRecipient env event) (.empty, 0)).1)

/-- The message-handling effect of `consumeNotifications` (lines 86–117)
over a sequence of received messages: each message is handed to
`processNotificationEvent`; a returned error is logged and the loop moves
on (the message is neither re-queued nor fatal). -/
def consumeMessages (env : NotifierEnv) (msgs : List RawMessage) : NotifierTrace :=
  msgs.foldl (fun tr m => tr.append (processNotificationEvent env m).2) .empty

/-! ## Scheduler (`unnamed/part_008`) -/

/-- External inputs of the scheduler jobs: the active-user list
(`userRepo.List` with `IsActive=true`), per-user settings, the per-user
due-task query (`GetTasksByAssignee` with `DueAfter=today`), the overdue
query (`GetOverdueTasks` with `DueBefore=now`), and the clock. -/
structure SchedulerEnv where
  activeUsers : Except GoErr (List User)
  settingsOf : String → Except GoErr (List NotificationSetting)
  tasksDueForUser : String → Except GoErr (List Task)
  overdueTasks : Except GoErr (List Task)
  now : Nat

/-- Midnight truncation `time.Date(Year, Month, Day, 0, 0, 0, 0, loc)` on
second-resolution timestamps. -/
def dayStart (t : Nat) : Nat := (t / 86400) * 86400

/-- `domain.TaskStatusInProgress`. -/
def TaskStatusInProgress : String := "in_progress"

/-- `formatDailyDigest` (part_008 lines 562–603). -/
def formatDailyDigest (now : Nat) (tasks : List Task) : String :=
  let today := dayStart now
  let tomorrow := today + 86400
  let inProgressCount := (tasks.filter (fun t => t.status == TaskStatusInProgress)).length
  let dueDates := tasks.filterMap (·.dueDate)
  let overdueCount := (dueDates.filter (fun d => dayStart d < today)).length
  let dueTodayCount := (dueDates.filter (fun d => dayStart d == today)).length
  let dueTomorrowCount := (dueDates.filter (fun d => dayStart d == tomorrow)).length
  let header := "У вас " ++ Nat.repr tasks.length ++ " активных задач:\n"
    ++ "- " ++ Nat.repr inProgressCount ++ " в процессе выполнения\n"
    ++ "- " ++ Nat.repr dueTodayCount ++ " со сроком сегодня\n"
    ++ "- " ++ Nat.repr dueTomorrowCount ++ " со сроком завтра\n"
    ++ "- " ++ Nat.repr overdueCount ++ " просроченных задач\n\n"
  let listing := tasks.foldl (fun acc t =>
    match t.dueDate with
    | some d =>
      if dayStart d == today then
        acc ++ "- " ++ t.title ++ " (приоритет: " ++ t.priority ++ ")\n"
      else acc
    | none => acc) "Задачи на сегодня:\n"
  header ++ listing

/-- One iteration of the per-user loop of `sendDailyDigests` (part_008
lines 116–195): settings (`continue` on error), the digest-enabled scan
(`EmailEnabled || WebEnabled` on the digest type), the due-task query
(`continue` on error), skip on an empty task list, else create the digest
notification and publish one event.  A failed create skips the publish. -/
def digestStep (env : SchedulerEnv) (acc : Store × List NotificationEvent)
    (user : User) : Store × List NotificationEvent :=
  match env.settingsOf user.id with
  | .error _ => acc
  | .ok settings =>
    let digestEnabled := settings.any (fun s =>
      s.notificationType == NotificationTypeDigest && (s.emailEnabled || s.webEnabled))
    if !digestEnabled then acc
    else
      match env.tasksDueForUser user.id with
      | .error _ => acc
      | .ok tasks =>
        if tasks.length == 0 then acc
        else
          let content := formatDailyDigest env.now tasks
          let n : Notification :=
            { id := "", userId := user.id, type := NotificationTypeDigest,
              title := "Ваш ежедневный отчет по задачам", content := content,
              status := NotificationStatusUnread, entityType := "digest",
              entityId := user.id, metaData := [], createdAt := env.now,
              readAt := none }
          match repoCreate acc.1 n with
          | .error _ => acc
          | .ok store' =>
            let ev : NotificationEvent :=
              { userIds := [user.id], title := n.title, content := n.content,
                type := n.type, entityId := user.id, entityType := "digest",
                createdAt := n.createdAt,
                metaData := [("user_id", user.id),
                             ("task_count", Nat.repr tasks.length)] }
            (store', acc.2 ++ [ev])

/-- `SchedulerService.sendDailyDigests` (part_008 lines 97–198).  The
produced events go to the `KafkaProducer.PublishNotificationEvent`
append-to-log contract (spec §4.1); publish failures are logged and do not
undo anything, so the event list records the publish calls. -/
def sendDailyDigests (env : SchedulerEnv) (store : Store) :
    Store × List NotificationEvent :=
  match env.activeUsers with
  | .error _ => (store, [])
  | .ok users => users.foldl (digestStep env) (store, [])

/-- The existence-check filter `checkOverdueTasks` builds (part_008 lines
330–334): entity id/type and the overdue type; `Limit` and `Offset` keep
their Go zero values. -/
def overdueNotificationFilter (taskId : String) : NotificationFilter :=
  { ids := [], types := [NotificationTypeTaskOverdue], status := none,
    entityId := some taskId, entityType := some "task", startDate := none,
    endDate := none, orderBy := none, orderDir := none, limit := 0, offset := 0 }

/-- One iteration of the per-task loop of `checkOverdueTasks` (part_008
lines 323–443): skip unassigned tasks, query existing overdue
notifications for the assignee and skip when any exist, check the
assignee's settings, create the assignee's notification and publish, and —
when the creator differs — create and publish for the creator in the same
pass, with no further existence check. -/
def overdueStep (env : SchedulerEnv) (acc : Store × List NotificationEvent)
    (task : Task) : Store × List NotificationEvent :=
  match task.assigneeId with
  | none => acc
  | some assigneeId =>
    let existing := repoGetUserNotifications acc.1 assigneeId (overdueNotificationFilter task.id)
    if existing.length > 0 then acc
    else
      match env.settingsOf assigneeId with
      | .error _ => acc
      | .ok settings =>
        let overdueEnabled := settings.any (fun s =>
          s.notificationType == NotificationTypeTaskOverdue && (s.emailEnabled || s.webEnabled))
        if !overdueEnabled then acc
        else
          let content := "Срок выполнения задачи \"" ++ task.title ++ "\" истек"
          let n : Notification :=
            { id := "", userId := assigneeId, type := NotificationTypeTaskOverdue,
              title := "Задача просрочена", content := content,
              status := NotificationStatusUnread, entityType := "task",
              entityId := task.id,
              metaData := [("task_id", task.id), ("task_title", task.title),
                           ("project_id", task.projectId),
                           ("due_date", formatRFC3339 (task.dueDate.getD 0))],
              createdAt := env.now, readAt := none }
          match repoCreate acc.1 n with
          | .error _ => acc
          | .ok store₁ =>
            let ev : NotificationEvent :=
              { userIds := [assigneeId], title := n.title, content := n.content,
                type := n.type, entityId := task.id, entityType := "task",
                createdAt := n.createdAt, metaData := n.metaData }
            let events₁ := acc.2 ++ [ev]
            if !(task.createdBy == assigneeId) then
              let n₂ : Notification :=
                { n with
                    userId := task.createdBy,
                    metaData := [("task_id", task.id), ("task_title", task.title),
                                 ("project_id", task.projectId),
                                 ("assignee_id", assigneeId),
                                 ("due_date", formatRFC3339 (task.dueDate.getD 0))] }
              match repoCreate store₁ n₂ with
              | .error _ => (store₁, events₁)
              | .ok store₂ =>
                let ev₂ :=
                  { ev with
                      userIds := [task.createdBy],
                      content := n₂.content,
                      metaData := n₂.metaData }
                (store₂, events₁ ++ [ev₂])
            else (store₁, events₁)

/-- `SchedulerService.checkOverdueTasks` (part_008 lines 305–446). -/
def checkOverdueTasks (env : SchedulerEnv) (store : Store) :
    Store × List NotificationEvent :=
  match env.overdueTasks with
  | .error _ => (store, [])
  | .ok tasks => tasks.foldl (overdueStep env) (store, [])

/-- Overdue notifications a user holds for a given task. -/
def countOverdueFor (store : Store) (userId taskId : String) : Nat :=
  (store.filter (fun n =>
    n.userId == userId && n.entityId == taskId && n.entityType == "task"
      && n.type == NotificationTypeTaskOverdue)).length

/-! ## Specification predicates and concrete inputs -/

/-- A character list in which every occurrence of a Markdown special
character is immediately preceded by a backslash. -/
def EscapedList (l : List Char) : Prop :=
  ∀ i, i < l.length → isSpecial (l.getD i ' ') = true →
    0 < i ∧ l.getD (i - 1) ' ' = '\\'

/-- An overdue task whose creator and assignee coincide, with web
notifications on: the concrete input of C3. -/
def taskC3 : Task :=
  { id := "t1", title := "T", status := "new", priority := "high", projectId := "p1",
    assigneeId := some "a1", createdBy := "a1", dueDate := some 100 }

def overdueSetting (u : String) : NotificationSetting :=
  { userId := u, notificationType := NotificationTypeTaskOverdue,
    emailEnabled := true, webEnabled := true, telegramEnabled := false }

def envC3 : SchedulerEnv :=
  { activeUsers := .ok [], settingsOf := fun u => .ok [overdueSetting u],
    tasksDueForUser := fun _ => .ok [], overdueTasks := .ok [taskC3], now := 1000 }

/-- The C3 task with a creator distinct from the assignee: C4's input. -/
def taskC4 : Task := { taskC3 with createdBy := "c1" }

def envC4 : SchedulerEnv := { envC3 with overdueTasks := .ok [taskC4] }

/-- A store already holding an overdue notification for the creator of
`taskC4`: input showing the creator path performs no existence check. -/
def storeC4 : Store :=
  [{ id := "n0", userId := "c1", type := NotificationTypeTaskOverdue, title := "old",
     content := "old", status := NotificationStatusUnread, entityId := "t1",
     entityType := "task", metaData := [], createdAt := 50, readAt := none }]

/-- A setting with the Telegram channel disabled for `task_assigned`. -/
def settingC2 : NotificationSetting :=
  { userId := "u1", notificationType := NotificationTypeTaskAssigned,
    emailEnabled := true, webEnabled := true, telegramEnabled := false }

def envC2 : NotifierEnv :=
  { settingsOf := fun _ => .ok [settingC2],
    userOf := fun uid => .ok { id := uid },
    taskOf := fun _ => .error "task not found",
    projectOf := fun _ => .error "project not found",
    telegramLinkOf := fun uid => .ok { userId := uid, telegramId := "tg", chatId := "chat" } }

def eventC2 : NotificationEvent :=
  { userIds := ["u1"], title := "t", content := "c",
    type := NotificationTypeTaskAssigned, entityId := "t1", entityType := "task",
    createdAt := 10, metaData := [] }

/-- A stored unread notification owned by `u1`: input for C5 and C6. -/
def notifC5 : Notification :=
  { id := "n1", userId := "u1", type := NotificationTypeTaskAssigned, title := "t",
    content := "c", status := NotificationStatusUnread, entityId := "t1",
    entityType := "task", metaData := [], createdAt := 10, readAt := none }

def digestSetting (u : String) : NotificationSetting :=
  { userId := u, notificationType := NotificationTypeDigest,
    emailEnabled := true, webEnabled := true, telegramEnabled := false }

/-- Two active users with digests enabled; every due-task query is empty. -/
def envC9 : SchedulerEnv :=
  { activeUsers := .ok [{ id := "u1" }, { id := "u2" }],
    settingsOf := fun u => .ok [digestSetting u],
    tasksDueForUser := fun _ => .ok [],
    overdueTasks := .ok [], now := 1000 }

/-- A notification carrying Markdown special characters in its
user-supplied fields: input for C8. -/
def notifC8 : Notification :=
  { id := "n8", userId := "u1", type := NotificationTypeTaskDueSoon, title := "A*B",
    content := "c_d", status := NotificationStatusUnread, entityId := "t1",
    entityType := "task",
    metaData := [("task_title", "T[1]"), ("hours_left", "12")],
    createdAt := 10, readAt := none }

/-! ## Helper lemmas -/

theorem uuidString_beq_empty (k : Nat) : ((uuidString k) == "") = false := by
  refine beq_eq_false_iff_ne.mpr (fun he => ?_)
  have hd : (uuidString k).data = 'u' :: 'u' :: 'i' :: 'd' :: '-' :: (Nat.repr k).data := rfl
  have := congrArg String.data he
  rw [hd] at this
  simp at this

theorem enrichNotification_id (env : NotifierEnv) (n : Notification) :
    (enrichNotification env n).id = n.id := by
  unfold enrichNotification
  split
  · split <;> rfl
  · split
    · split <;> rfl
    · rfl

theorem processRecipient_created (env : NotifierEnv) (event : NotificationEvent)
    (acc : NotifierTrace × Nat) (u : String) :
    ((processRecipient env event acc u).1).created = acc.1.created := by
  obtain ⟨tr, ctr⟩ := acc
  unfold processRecipient
  cases hs : env.settingsOf u with
  | error e => rfl
  | ok settings =>
    cases hu : env.userOf u with
    | error e => rfl
    | ok user =>
      have hid : ((enrichNotification env
          { id := uuidString ctr, userId := u, type := event.type,
            title := event.title, content := event.content,
            status := NotificationStatusUnread, entityId := event.entityId,
            entityType := event.entityType, metaData := event.metaData,
            createdAt := event.createdAt, readAt := none }).id == "") = false := by
        rw [enrichNotification_id]; exact uuidString_beq_empty ctr
      simp only [hid, Bool.false_eq_true, if_false]
      split <;> rfl

theorem foldl_processRecipient_created (env : NotifierEnv) (event : NotificationEvent)
    (l : List String) (acc : NotifierTrace × Nat) :
    ((l.foldl (processRecipient env event) acc).1).created = acc.1.created := by
  induction l generalizing acc with
  | nil => rfl
  | cons u rest ih => rw [List.foldl_cons, ih, processRecipient_created]

/-- C1: the notifier's `processNotificationEvent` never hands any record
to `NotificationRepository.Create`: the record's `ID` is set to
`uuid.New().String()` (never empty) and the persist call is guarded by
`notification.ID == ""`, so the guard is always false. -/
theorem processNotificationEvent_persists_nothing (env : NotifierEnv) (msg : RawMessage) :
    (processNotificationEvent env msg).2.created = [] := by
  cases msg with
  | wellFormed event =>
    show ((event.userIds.foldl (processRecipient env event) (.empty, 0)).1).created = []
    rw [foldl_processRecipient_created]
    rfl
  | malformed raw => rfl

theorem processRecipient_invocations (env : NotifierEnv) (event : NotificationEvent)
    (acc : NotifierTrace × Nat) (v : String) :
    ((processRecipient env event acc v).1).telegramInvocations = acc.1.telegramInvocations
      ∨ ((processRecipient env event acc v).1).telegramInvocations
          = acc.1.telegramInvocations ++ [v] := by
  obtain ⟨tr, ctr⟩ := acc
  unfold processRecipient
  cases env.settingsOf v with
  | error e => exact .inl rfl
  | ok settings =>
    cases env.userOf v with
    | error e => exact .inl rfl
    | ok user =>
      simp only
      split
      · split
        · exact .inr rfl
        · exact .inl rfl
      · split
        · exact .inr rfl
        · exact .inl rfl

theorem processRecipient_disabled_invocations (env : NotifierEnv) (event : NotificationEvent)
    (acc : NotifierTrace × Nat) (u : String) (settings : List NotificationSetting)
    (hs : env.settingsOf u = .ok settings)
    (hd : telegramEnabledFor settings event.type = false) :
    ((processRecipient env event acc u).1).telegramInvocations
      = acc.1.telegramInvocations := by
  obtain ⟨tr, ctr⟩ := acc
  unfold processRecipient
  rw [hs]
  cases env.userOf u with
  | error e => rfl
  | ok user =>
    simp only [hd, Bool.false_eq_true, if_false]
    split <;> rfl

theorem foldl_processRecipient_not_invoked (env : NotifierEnv) (event : NotificationEvent)
    (l : List String) (acc : NotifierTrace × Nat) (u : String)
    (settings : List NotificationSetting)
    (hs : env.settingsOf u = .ok settings)
    (hd : telegramEnabledFor settings event.type = false)
    (hacc : u ∉ acc.1.telegramInvocations) :
    u ∉ ((l.foldl (processRecipient env event) acc).1).telegramInvocations := by
  induction l generalizing acc with
  | nil => exact hacc
  | cons v rest ih =>
    rw [List.foldl_cons]
    refine ih _ ?_
    by_cases hv : v = u
    · subst hv
      rw [processRecipient_disabled_invocations env event acc v settings hs hd]
      exact hacc
    · rcases processRecipient_invocations env event acc v with h | h
      · rw [h]; exact hacc
      · rw [h]
        intro hmem
        rcases List.mem_append.mp hmem with h₁ | h₁
        · exact hacc h₁
        · exact hv (List.mem_singleton.mp h₁).symm

/-- C2: when a recipient's `NotificationSetting` for the event's type has
the Telegram channel disabled, `TelegramSender.SendNotification` is never
invoked for that recipient while the event is processed — but the claimed
in-app record is not persisted either: the dead `notification.ID == ""`
guard keeps `processNotificationEvent` from creating any record at all. -/
theorem disabled_channel_never_dispatched (env : NotifierEnv) (event : NotificationEvent)
    (u : String) (settings : List NotificationSetting)
    (hs : env.settingsOf u = .ok settings)
    (hd : telegramEnabledFor settings event.type = false) :
    u ∉ (processNotificationEvent env (.wellFormed event)).2.telegramInvocations
      ∧ (processNotificationEvent env (.wellFormed event)).2.created = [] := by
  constructor
  · show u ∉ ((event.userIds.foldl (processRecipient env event) (.empty, 0)).1).telegramInvocations
    refine foldl_processRecipient_not_invoked env event event.userIds (.empty, 0) u settings hs hd ?_
    simp [NotifierTrace.empty]
  · show ((event.userIds.foldl (processRecipient env event) (.empty, 0)).1).created = []
    rw [foldl_processRecipient_created]
    rfl

/-- C7: a message whose payload does not deserialize makes
`processNotificationEvent` return an error having touched neither the
store nor the dispatcher, and the consumer loop logs it and moves on to
the remaining messages unchanged — the message is dropped, not re-queued,
and nothing crashes. -/
theorem malformed_message_logged_and_skipped (env : NotifierEnv) (raw : String)
    (rest : List RawMessage) :
    (processNotificationEvent env (.malformed raw)).1
        = .error ("failed to unmarshal notification event: " ++ ("invalid JSON: " ++ raw))
      ∧ (processNotificationEvent env (.malformed raw)).2 = .empty
      ∧ consumeMessages env (.malformed raw :: rest) = consumeMessages env rest :=
  ⟨rfl, rfl, rfl⟩

theorem find?_cons_expand (p : Notification → Bool) (a : Notification)
    (l : List Notification) :
    List.find? p (a :: l) = if p a then some a else List.find? p l := by
  by_cases h : p a = true
  · rw [if_pos h]
    exact List.find?_cons_of_pos l h
  · rw [if_neg h]
    exact List.find?_cons_of_neg l h

theorem find?_map_update (store : Store) (id : String) (upd : Notification → Notification)
    (hid : ∀ m, (upd m).id = m.id) (n : Notification)
    (h : store.find? (fun m => m.id == id) = some n) :
    (store.map (fun m => if m.id == id then upd m else m)).find? (fun m => m.id == id)
      = some (upd n) := by
  induction store with
  | nil => simp at h
  | cons m rest ih =>
    rw [find?_cons_expand] at h
    by_cases hm : (m.id == id) = true
    · rw [if_pos hm] at h
      injection h with h'
      subst h'
      simp only [List.map_cons]
      rw [find?_cons_expand]
      have hcond : (if (m.id == id) = true then upd m else m) = upd m := if_pos hm
      rw [hcond, if_pos (show ((upd m).id == id) = true by rw [hid]; exact hm)]
    · rw [if_neg hm] at h
      simp only [List.map_cons]
      rw [find?_cons_expand]
      have hcond : (if (m.id == id) = true then upd m else m) = m := if_neg hm
      rw [hcond, if_neg hm]
      exact ih h

theorem any_of_find? (store : Store) (id : String) (n : Notification)
    (h : store.find? (fun m => m.id == id) = some n) :
    store.any (fun m => m.id == id) = true := by
  have hp := List.find?_some h
  exact List.any_eq_true.mpr ⟨n, List.mem_of_find?_eq_some h, hp⟩

theorem mem_insertByCreatedAt {m n : Notification} {d : Bool} {l : List Notification}
    (h : m ∈ insertByCreatedAt d n l) : m = n ∨ m ∈ l := by
  induction l with
  | nil =>
    rw [show insertByCreatedAt d n [] = [n] from rfl] at h
    exact .inl (List.mem_singleton.mp h)
  | cons a rest ih =>
    unfold insertByCreatedAt at h
    split at h
    · rcases List.mem_cons.mp h with h₁ | h₁
      · exact .inr (List.mem_cons.mpr (.inl h₁))
      · rcases ih h₁ with h₂ | h₂
        · exact .inl h₂
        · exact .inr (List.mem_cons.mpr (.inr h₂))
    · rcases List.mem_cons.mp h with h₁ | h₁
      · exact .inl h₁
      · exact .inr h₁

theorem mem_sortByCreatedAt {m : Notification} {d : Bool} {l : List Notification}
    (h : m ∈ sortByCreatedAt d l) : m ∈ l := by
  induction l with
  | nil => exact absurd h (List.not_mem_nil m)
  | cons a rest ih =>
    have hs : sortByCreatedAt d (a :: rest) = insertByCreatedAt d a (sortByCreatedAt d rest) := rfl
    rw [hs] at h
    rcases mem_insertByCreatedAt h with h₁ | h₁
    · exact List.mem_cons.mpr (.inl h₁)
    · exact List.mem_cons.mpr (.inr (ih h₁))

/-- With no explicit status filter, `GetUserNotifications` appends
`status != 'deleted'` to the `WHERE` clause, so no returned row is
soft-deleted. -/
theorem getUserNotifications_excludes_deleted (store : Store) (u : String)
    (f : NotificationFilter) (hf : f.status = none) :
    ∀ m ∈ repoGetUserNotifications store u f, m.status ≠ NotificationStatusDeleted := by
  intro m hm
  have h₁ : m ∈ sortByCreatedAt (orderDescending f) (store.filter (notifWhere u f)) :=
    List.mem_of_mem_drop (List.mem_of_mem_take hm)
  have h₂ : m ∈ store.filter (notifWhere u f) := mem_sortByCreatedAt h₁
  have h₃ : notifWhere u f m = true := List.of_mem_filter h₂
  unfold notifWhere at h₃
  rw [hf] at h₃
  simp only [Bool.and_eq_true] at h₃
  have h₄ : (!(m.status == NotificationStatusDeleted)) = true := h₃.1.1.1.1.1.2
  intro he
  rw [he] at h₄
  simp at h₄

/-- C5: `MarkAsRead` through the service: the first call on an unread
notification owned by the caller succeeds and stamps `read`/`readAt`; the
second call hits the `IsRead` early return, reports success, and leaves
the store — in particular the first call's `readAt` — untouched. -/
theorem markAsRead_idempotent (store : Store) (id userId : String) (n : Notification)
    (t₁ t₂ : Nat)
    (hfind : store.find? (fun m => m.id == id) = some n)
    (howner : n.userId = userId)
    (hunread : n.status = NotificationStatusUnread) :
    (serviceMarkAsRead store id userId t₁).1 = .ok
      ∧ ((serviceMarkAsRead store id userId t₁).2).find? (fun m => m.id == id)
          = some { n with status := NotificationStatusRead, readAt := some t₁ }
      ∧ serviceMarkAsRead (serviceMarkAsRead store id userId t₁).2 id userId t₂
          = (.ok, (serviceMarkAsRead store id userId t₁).2) := by
  have hget : repoGetByID store id = .ok (some n) := by
    unfold repoGetByID; rw [hfind]
  have howner' : (n.userId == userId) = true := by rw [howner]; exact beq_self_eq_true _
  have hnotread : n.isRead = false := by
    unfold Notification.isRead; rw [hunread]; rfl
  have hrepo : repoMarkAsRead store id t₁
      = .ok (store.map (fun m =>
          if m.id == id then { m with status := NotificationStatusRead, readAt := some t₁ }
          else m)) := by
    unfold repoMarkAsRead
    rw [if_pos (any_of_find? store id n hfind)]
  have h₁ : serviceMarkAsRead store id userId t₁
      = (.ok, store.map (fun m =>
          if m.id == id then { m with status := NotificationStatusRead, readAt := some t₁ }
          else m)) := by
    unfold serviceMarkAsRead
    rw [hget]
    simp only [howner', hnotread, hrepo, Bool.not_true, Bool.false_eq_true, if_false]
  have hupd : (store.map (fun m =>
      if m.id == id then { m with status := NotificationStatusRead, readAt := some t₁ }
      else m)).find? (fun m => m.id == id)
        = some { n with status := NotificationStatusRead, readAt := some t₁ } :=
    find?_map_update store id
      (fun m => { m with status := NotificationStatusRead, readAt := some t₁ })
      (fun _ => rfl) n hfind
  refine ⟨by rw [h₁], by rw [h₁]; exact hupd, ?_⟩
  rw [h₁]
  have hget₂ : repoGetByID (store.map (fun m =>
      if m.id == id then { m with status := NotificationStatusRead, readAt := some t₁ }
      else m)) id = .ok (some { n with status := NotificationStatusRead, readAt := some t₁ }) := by
    unfold repoGetByID; rw [hupd]
  unfold serviceMarkAsRead
  rw [hget₂]
  simp only [howner', Bool.not_true, Bool.false_eq_true, if_false]
  have hread₂ : ({ n with status := NotificationStatusRead, readAt := some t₁ } :
      Notification).isRead = true := rfl
  rw [hread₂]
  rfl

/-- C6: deleting through the service is the repository's soft delete: the
outcome is success, no row disappears, the targeted row keeps every field
except `status` (now `deleted`), all other rows are untouched, and
listings without an explicit status filter exclude the row from then
on. -/
theorem delete_is_soft_and_frame (store : Store) (id userId : String) (n : Notification)
    (hfind : store.find? (fun m => m.id == id) = some n)
    (howner : n.userId = userId) :
    (serviceDelete store id userId).1 = .ok
      ∧ ((serviceDelete store id userId).2).length = store.length
      ∧ ((serviceDelete store id userId).2).find? (fun m => m.id == id)
          = some { n with status := NotificationStatusDeleted }
      ∧ (∀ m ∈ store, ¬(m.id = id) → m ∈ (serviceDelete store id userId).2)
      ∧ (∀ f : NotificationFilter, f.status = none →
          ∀ m ∈ repoGetUserNotifications (serviceDelete store id userId).2 userId f,
            m.status ≠ NotificationStatusDeleted) := by
  have hget : repoGetByID store id = .ok (some n) := by
    unfold repoGetByID; rw [hfind]
  have howner' : (n.userId == userId) = true := by rw [howner]; exact beq_self_eq_true _
  have hrepo : repoDelete store id
      = .ok (store.map (fun m =>
          if m.id == id then { m with status := NotificationStatusDeleted } else m)) := by
    unfold repoDelete
    rw [if_pos (any_of_find? store id n hfind)]
  have h₁ : serviceDelete store id userId
      = (.ok, store.map (fun m =>
          if m.id == id then { m with status := NotificationStatusDeleted } else m)) := by
    unfold serviceDelete
    rw [hget]
    simp only [howner', hrepo, Bool.not_true, Bool.false_eq_true, if_false]
  refine ⟨by rw [h₁], by rw [h₁]; exact List.length_map _ _, ?_, ?_, ?_⟩
  · rw [h₁]
    exact find?_map_update store id
      (fun m => { m with status := NotificationStatusDeleted }) (fun _ => rfl) n hfind
  · intro m hm hne
    rw [h₁]
    refine List.mem_map.mpr ⟨m, hm, ?_⟩
    rw [if_neg]
    rw [beq_eq_false_iff_ne.mpr hne]
    simp
  · intro f hf m hm
    exact getUserNotifications_excludes_deleted _ userId f hf m hm

/-- C10: the repository reports a missing notification as `(nil, nil)`;
the services' `err != nil` guards therefore pass and the ownership check
dereferences the nil record — a runtime panic, not the claimed
`ErrNotificationNotFound` return. -/
theorem missing_notification_panics (store : Store) (id userId : String) (now : Nat)
    (h : store.find? (fun m => m.id == id) = none) :
    repoGetByID store id = .ok none
      ∧ serviceMarkAsRead store id userId now = (.nilPanic, store)
      ∧ serviceGetByID store id userId = (.nilPanic, none)
      ∧ serviceDelete store id userId = (.nilPanic, store)
      ∧ (serviceMarkAsRead store id userId now).1 ≠ .svcErr ErrNotificationNotFound := by
  have hget : repoGetByID store id = .ok none := by
    unfold repoGetByID; rw [h]
  have h₁ : serviceMarkAsRead store id userId now = (.nilPanic, store) := by
    unfold serviceMarkAsRead; rw [hget]
  have h₂ : serviceGetByID store id userId = (.nilPanic, none) := by
    unfold serviceGetByID; rw [hget]
  have h₃ : serviceDelete store id userId = (.nilPanic, store) := by
    unfold serviceDelete; rw [hget]
  refine ⟨hget, h₁, h₂, h₃, ?_⟩
  rw [h₁]
  intro hcontra
  simp at hcontra

/-! ## Scheduler theorems -/

theorem overdueQuery_empty (store : Store) (u tid : String) :
    repoGetUserNotifications store u (overdueNotificationFilter tid) = [] := rfl

/-- C3: the overdue job's deduplication never holds anything back — the
existence query runs with the filter's zero `Limit`, so the generated SQL
ends in `LIMIT 0` and returns no rows for any store; consequently a second
run over the unchanged overdue task set creates a second overdue
notification for the same (task, assignee) pair. -/
theorem overdue_recheck_creates_duplicate :
    (∀ (store : Store) (u tid : String),
        repoGetUserNotifications store u (overdueNotificationFilter tid) = [])
      ∧ countOverdueFor (checkOverdueTasks envC3 []).1 "a1" "t1" = 1
      ∧ countOverdueFor (checkOverdueTasks envC3 (checkOverdueTasks envC3 []).1).1 "a1" "t1" = 2 := by
  refine ⟨fun store u tid => rfl, by decide, by decide⟩

/-- C4 counterexample: running `checkOverdueTasks` twice over the
unchanged single-task set gives the creator `c1` two overdue
notifications for task `t1` — the second run did create a second record
for the (task, creator) pair. -/
theorem overdue_creator_duplicate_counterexample :
    countOverdueFor (checkOverdueTasks envC4 (checkOverdueTasks envC4 []).1).1 "c1" "t1" = 2 := by
  decide

/-- C4 amended: when the assignee's branch proceeds to creation (its
existence query is always empty), the creator — if distinct — is notified
in the same pass with no creator-keyed existence check at all: every run
adds one creator record regardless of the creator's existing
notifications, so a second run duplicates. -/
theorem overdue_creator_no_independent_dedup (env : SchedulerEnv) (store : Store)
    (task : Task) (assigneeId : String) (settings : List NotificationSetting)
    (htasks : env.overdueTasks = .ok [task])
    (hassign : task.assigneeId = some assigneeId)
    (hsettings : env.settingsOf assigneeId = .ok settings)
    (henabled : settings.any (fun s =>
        s.notificationType == NotificationTypeTaskOverdue
          && (s.emailEnabled || s.webEnabled)) = true)
    (hcreator : ¬(task.createdBy = assigneeId)) :
    countOverdueFor (checkOverdueTasks env store).1 task.createdBy task.id
      = countOverdueFor store task.createdBy task.id + 1 := by
  unfold checkOverdueTasks
  rw [htasks]
  dsimp only
  rw [List.foldl_cons, List.foldl_nil]
  unfold overdueStep
  rw [hassign]
  dsimp only
  have hrev : (assigneeId == task.createdBy) = false :=
    beq_eq_false_iff_ne.mpr (fun he => hcreator he.symm)
  simp only [overdueQuery_empty, List.length_nil, gt_iff_lt, lt_self_iff_false, if_false,
    hsettings, henabled, Bool.not_true, Bool.false_eq_true, repoCreate,
    beq_eq_false_iff_ne.mpr hcreator, Bool.not_false, if_true]
  unfold countOverdueFor
  simp only [List.filter_append, List.length_append, List.filter_cons, List.filter_nil,
    beq_self_eq_true, hrev, Bool.false_and, Bool.and_self, Bool.true_and, Bool.and_true,
    Bool.false_eq_true, if_true, if_false, List.length_cons, List.length_nil]

theorem processRecipient_invocations_sub (env : NotifierEnv) (event : NotificationEvent)
    (acc : NotifierTrace × Nat) (v u : String)
    (h : u ∈ ((processRecipient env event acc v).1).telegramInvocations) :
    u ∈ acc.1.telegramInvocations ∨ u = v := by
  rcases processRecipient_invocations env event acc v with he | he <;> rw [he] at h
  · exact .inl h
  · rcases List.mem_append.mp h with h₁ | h₁
    · exact .inl h₁
    · exact .inr (List.mem_singleton.mp h₁)

theorem foldl_processRecipient_invocations_sub (env : NotifierEnv)
    (event : NotificationEvent) (l : List String) (acc : NotifierTrace × Nat) (u : String)
    (h : u ∈ ((l.foldl (processRecipient env event) acc).1).telegramInvocations) :
    u ∈ acc.1.telegramInvocations ∨ u ∈ l := by
  induction l generalizing acc with
  | nil => exact .inl h
  | cons v rest ih =>
    rw [List.foldl_cons] at h
    rcases ih _ h with h₁ | h₁
    · rcases processRecipient_invocations_sub env event acc v u h₁ with h₂ | h₂
      · exact .inl h₂
      · exact .inr (List.mem_cons.mpr (.inl h₂))
    · exact .inr (List.mem_cons.mpr (.inr h₁))

theorem processEvent_invocations_sub (env : NotifierEnv) (msg : RawMessage) (u : String)
    (h : u ∈ (processNotificationEvent env msg).2.telegramInvocations) :
    ∃ e, msg = .wellFormed e ∧ u ∈ e.userIds := by
  cases msg with
  | malformed raw => exact absurd h (List.not_mem_nil u)
  | wellFormed e =>
    refine ⟨e, rfl, ?_⟩
    have h' : u ∈ ((e.userIds.foldl (processRecipient env e)
        (.empty, 0)).1).telegramInvocations := h
    rcases foldl_processRecipient_invocations_sub env e e.userIds (.empty, 0) u h' with h₁ | h₁
    · exact absurd h₁ (List.not_mem_nil u)
    · exact h₁

theorem consumeMessages_invocations_sub (env : NotifierEnv) (msgs : List RawMessage)
    (u : String) (h : u ∈ (consumeMessages env msgs).telegramInvocations) :
    ∃ e, RawMessage.wellFormed e ∈ msgs ∧ u ∈ e.userIds := by
  unfold consumeMessages at h
  suffices hs : ∀ acc : NotifierTrace,
      u ∈ (msgs.foldl (fun tr m => tr.append (processNotificationEvent env m).2)
        acc).telegramInvocations →
      u ∈ acc.telegramInvocations ∨ ∃ e, RawMessage.wellFormed e ∈ msgs ∧ u ∈ e.userIds by
    rcases hs .empty h with h₁ | h₁
    · exact absurd h₁ (List.not_mem_nil u)
    · exact h₁
  clear h
  induction msgs with
  | nil => exact fun acc ha => .inl ha
  | cons m rest ih =>
    intro acc ha
    rw [List.foldl_cons] at ha
    rcases ih _ ha with h₁ | h₁
    · simp only [NotifierTrace.append] at h₁
      rcases List.mem_append.mp h₁ with h₂ | h₂
      · exact .inl h₂
      · obtain ⟨e, he, heu⟩ := processEvent_invocations_sub env m u h₂
        refine .inr ⟨e, ?_, heu⟩
        rw [← he]
        exact List.mem_cons.mpr (.inl rfl)
    · obtain ⟨e, he, heu⟩ := h₁
      exact .inr ⟨e, List.mem_cons.mpr (.inr he), heu⟩

theorem digestStep_self_empty (env : SchedulerEnv) (acc : Store × List NotificationEvent)
    (user : User) (h : env.tasksDueForUser user.id = .ok []) :
    digestStep env acc user = acc := by
  unfold digestStep
  cases env.settingsOf user.id with
  | error e => rfl
  | ok settings =>
    dsimp only
    split
    · rfl
    · rw [h]
      rfl

theorem digestStep_other (env : SchedulerEnv) (acc : Store × List NotificationEvent)
    (user : User) (uid : String) (hne : ¬(user.id = uid)) :
    ((digestStep env acc user).1.filter (fun n => n.userId == uid)
        = acc.1.filter (fun n => n.userId == uid))
      ∧ (∀ ev ∈ (digestStep env acc user).2, ev ∈ acc.2 ∨ uid ∉ ev.userIds) := by
  have htriv : ∀ ev ∈ acc.2, ev ∈ acc.2 ∨ uid ∉ ev.userIds := fun ev hev => .inl hev
  unfold digestStep
  cases env.settingsOf user.id with
  | error e => exact ⟨rfl, htriv⟩
  | ok settings =>
    dsimp only
    split
    · exact ⟨rfl, htriv⟩
    · cases env.tasksDueForUser user.id with
      | error e => exact ⟨rfl, htriv⟩
      | ok tasks =>
        dsimp only
        split
        · exact ⟨rfl, htriv⟩
        · simp only [repoCreate]
          constructor
          · rw [List.filter_append]
            have hu : ((fun n : Notification => n.userId == uid)
                { id := "", userId := user.id, type := NotificationTypeDigest,
                  title := "Ваш ежедневный отчет по задачам",
                  content := formatDailyDigest env.now tasks,
                  status := NotificationStatusUnread, entityType := "digest",
                  entityId := user.id, metaData := [], createdAt := env.now,
                  readAt := none }) = false := beq_eq_false_iff_ne.mpr hne
            simp [hu]
          · intro ev hev
            rcases List.mem_append.mp hev with h₁ | h₁
            · exact .inl h₁
            · refine .inr ?_
              rw [List.mem_singleton.mp h₁]
              intro hmem
              exact hne (List.mem_singleton.mp hmem).symm

/-- C9: a user whose due-task query comes back empty contributes nothing
to a digest run: the store gains no record of theirs, no event naming them
is published, and — since the Telegram dispatcher is only ever invoked for
recipients of consumed events — no dispatcher call for them can result. -/
theorem digest_empty_tasks_no_output (env : SchedulerEnv) (store : Store) (uid : String)
    (h : env.tasksDueForUser uid = .ok []) :
    ((sendDailyDigests env store).1.filter (fun n => n.userId == uid)
        = store.filter (fun n => n.userId == uid))
      ∧ (∀ ev ∈ (sendDailyDigests env store).2, uid ∉ ev.userIds)
      ∧ (∀ env' : NotifierEnv,
          uid ∉ (consumeMessages env'
            ((sendDailyDigests env store).2.map RawMessage.wellFormed)).telegramInvocations) := by
  have hmain :
      ((sendDailyDigests env store).1.filter (fun n => n.userId == uid)
          = store.filter (fun n => n.userId == uid))
        ∧ (∀ ev ∈ (sendDailyDigests env store).2, uid ∉ ev.userIds) := by
    unfold sendDailyDigests
    cases env.activeUsers with
    | error e => exact ⟨rfl, fun ev hev => absurd hev (List.not_mem_nil ev)⟩
    | ok users =>
      dsimp only
      suffices hs : ∀ acc : Store × List NotificationEvent,
          acc.1.filter (fun n => n.userId == uid) = store.filter (fun n => n.userId == uid) →
          (∀ ev ∈ acc.2, uid ∉ ev.userIds) →
          ((users.foldl (digestStep env) acc).1.filter (fun n => n.userId == uid)
              = store.filter (fun n => n.userId == uid))
            ∧ (∀ ev ∈ (users.foldl (digestStep env) acc).2, uid ∉ ev.userIds) by
        exact hs (store, []) rfl (fun ev hev => absurd hev (List.not_mem_nil ev))
      induction users with
      | nil => exact fun acc h₁ h₂ => ⟨h₁, h₂⟩
      | cons v rest ih =>
        intro acc h₁ h₂
        rw [List.foldl_cons]
        by_cases hv : v.id = uid
        · rw [digestStep_self_empty env acc v (by rw [hv]; exact h)]
          exact ih acc h₁ h₂
        · obtain ⟨hA, hB⟩ := digestStep_other env acc v uid hv
          refine ih (digestStep env acc v) (by rw [hA, h₁]) ?_
          intro ev hev
          rcases hB ev hev with h₃ | h₃
          · exact h₂ ev h₃
          · exact h₃
  refine ⟨hmain.1, hmain.2, ?_⟩
  intro env' hmem
  obtain ⟨e, he, heu⟩ := consumeMessages_invocations_sub env'
    ((sendDailyDigests env store).2.map RawMessage.wellFormed) uid hmem
  obtain ⟨ev', hev', heq⟩ := List.mem_map.mp he
  injection heq with heq'
  rw [← heq'] at heu
  exact hmain.2 ev' hev' heu

/-! ## Telegram escaping theorems -/

theorem escapeChars_cons_special {c : Char} (hc : isSpecial c = true) (rest : List Char) :
    escapeChars (c :: rest) = '\\' :: c :: escapeChars rest := by
  simp only [escapeChars]
  rw [if_pos hc]
  rfl

theorem escapeChars_cons_plain {c : Char} (hc : ¬(isSpecial c = true)) (rest : List Char) :
    escapeChars (c :: rest) = c :: escapeChars rest := by
  simp only [escapeChars]
  rw [if_neg hc]
  rfl

theorem escapeChars_escaped (s : List Char) : EscapedList (escapeChars s) := by
  induction s with
  | nil =>
    intro i hi hsp
    simp [escapeChars] at hi
  | cons c rest ih =>
    by_cases hc : isSpecial c = true
    · rw [escapeChars_cons_special hc]
      intro i hi hsp
      match i, hi, hsp with
      | 0, hi, hsp =>
        rw [List.getD_cons_zero] at hsp
        exact absurd hsp (by decide)
      | 1, hi, hsp =>
        exact ⟨Nat.one_pos, rfl⟩
      | (j+2), hi, hsp =>
        rw [List.length_cons, List.length_cons] at hi
        have hj : j < (escapeChars rest).length := by omega
        rw [List.getD_cons_succ, List.getD_cons_succ] at hsp
        obtain ⟨hpos, hprev⟩ := ih j hj hsp
        obtain ⟨k, rfl⟩ : ∃ k, j = k + 1 := ⟨j - 1, by omega⟩
        refine ⟨by omega, ?_⟩
        show ('\\' :: c :: escapeChars rest).getD (k + 2) ' ' = '\\'
        rw [List.getD_cons_succ, List.getD_cons_succ]
        exact hprev
    · rw [escapeChars_cons_plain hc]
      intro i hi hsp
      match i, hi, hsp with
      | 0, hi, hsp =>
        rw [List.getD_cons_zero] at hsp
        exact absurd hsp hc
      | (j+1), hi, hsp =>
        rw [List.length_cons] at hi
        have hj : j < (escapeChars rest).length := by omega
        rw [List.getD_cons_succ] at hsp
        obtain ⟨hpos, hprev⟩ := ih j hj hsp
        obtain ⟨k, rfl⟩ : ∃ k, j = k + 1 := ⟨j - 1, by omega⟩
        refine ⟨by omega, ?_⟩
        show (c :: escapeChars rest).getD (k + 1) ' ' = '\\'
        rw [List.getD_cons_succ]
        exact hprev

theorem escapeChars_count {c : Char} (hc : isSpecial c = true) (s : List Char) :
    (escapeChars s).count c = s.count c := by
  induction s with
  | nil => rfl
  | cons d rest ih =>
    have hbs : ('\\' == c) = false := by
      refine beq_eq_false_iff_ne.mpr (fun hbc => ?_)
      rw [← hbc] at hc
      exact absurd hc (by decide)
    by_cases hd : isSpecial d = true
    · rw [escapeChars_cons_special hd]
      by_cases hdc : (d == c) = true
      · simp [List.count_cons, hbs, hdc, ih]
      · simp [List.count_cons, hbs, hdc, ih]
    · rw [escapeChars_cons_plain hd]
      by_cases hdc : (d == c) = true
      · simp [List.count_cons, hdc, ih]
      · simp [List.count_cons, hdc, ih]

theorem string_data_append (s t : String) : (s ++ t).data = s.data ++ t.data := rfl

theorem factor_here (x rest : List Char) : ∃ a b, x ++ rest = a ++ (x ++ b) :=
  ⟨[], rest, rfl⟩

theorem factor_prepend (z : List Char) {y x : List Char}
    (h : ∃ a b, y = a ++ (x ++ b)) : ∃ a b, z ++ y = a ++ (x ++ b) := by
  obtain ⟨a, b, hab⟩ := h
  exact ⟨z ++ a, b, by rw [hab]; simp [List.append_assoc]⟩

theorem factor_append (z : List Char) {y x : List Char}
    (h : ∃ a b, y = a ++ (x ++ b)) : ∃ a b, y ++ z = a ++ (x ++ b) := by
  obtain ⟨a, b, hab⟩ := h
  exact ⟨a, b ++ z, by rw [hab]; simp [List.append_assoc]⟩

theorem metaExtras_extends (meta : List (String × String))
    (fields : List (String × String × String)) :
    ∀ acc : String, ∃ t, (metaExtras meta fields acc).data = acc.data ++ t := by
  induction fields with
  | nil =>
    intro acc
    exact ⟨[], (List.append_nil _).symm⟩
  | cons f rest ih =>
    intro acc
    cases hm : mapGet meta f.2.1 with
    | none =>
      simp only [metaExtras, hm]
      exact ih acc
    | some v =>
      simp only [metaExtras, hm]
      obtain ⟨t, ht⟩ := ih (acc ++ f.1 ++ escapeMarkdown v ++ f.2.2)
      refine ⟨f.1.data ++ ((escapeMarkdown v).data ++ (f.2.2.data ++ t)), ?_⟩
      rw [ht]
      simp [string_data_append, List.append_assoc]

theorem metaExtras_factor (meta : List (String × String)) (v : String)
    (fields : List (String × String × String)) :
    ∀ acc : String, (∃ f ∈ fields, mapGet meta f.2.1 = some v) →
      ∃ a b, (metaExtras meta fields acc).data = a ++ (escapeChars v.data ++ b) := by
  induction fields with
  | nil =>
    intro acc h
    obtain ⟨f, hf, _⟩ := h
    exact absurd hf (List.not_mem_nil f)
  | cons f rest ih =>
    intro acc h
    obtain ⟨g, hg, hgv⟩ := h
    rcases List.mem_cons.mp hg with hg₁ | hg₁
    · subst hg₁
      simp only [metaExtras, hgv]
      obtain ⟨t, ht⟩ := metaExtras_extends meta rest (acc ++ g.1 ++ escapeMarkdown v ++ g.2.2)
      refine ⟨acc.data ++ g.1.data, g.2.2.data ++ t, ?_⟩
      rw [ht]
      have hesc : (escapeMarkdown v).data = escapeChars v.data := rfl
      simp [string_data_append, hesc, List.append_assoc]
    · cases hm : mapGet meta f.2.1 with
      | none =>
        simp only [metaExtras, hm]
        exact ih acc ⟨g, hg₁, hgv⟩
      | some w =>
        simp only [metaExtras, hm]
        exact ih _ ⟨g, hg₁, hgv⟩

/-- C8: every user-supplied string `formatMessage` renders — the title,
the content, and each metadata value looked up for the notification's
type — enters the message only through `escapeMarkdown`: the escaped form
occurs verbatim as a factor of the message, every Markdown special
character in it is immediately preceded by a backslash, and no special
character is dropped (occurrence counts are preserved). -/
theorem formatMessage_escapes_user_text (n : Notification) (u : User) :
    ∀ s ∈ n.title :: n.content :: renderedMetaValues n,
      (∃ pre post, (formatMessage n u).data = pre ++ escapeChars s.data ++ post)
        ∧ EscapedList (escapeChars s.data)
        ∧ (∀ c, isSpecial c = true → (escapeChars s.data).count c = s.data.count c) := by
  intro s hs
  refine ⟨?_, escapeChars_escaped s.data, fun c hc => escapeChars_count hc s.data⟩
  have hesc : ∀ x : String, (escapeMarkdown x).data = escapeChars x.data := fun _ => rfl
  rcases List.mem_cons.mp hs with h₁ | hs₁
  · subst h₁
    by_cases hm : n.metaData.isEmpty = true
    · simp only [formatMessage, hm, if_true, string_data_append, hesc, List.append_assoc]
      exact factor_prepend _ (factor_here _ _)
    · have hm' : n.metaData.isEmpty = false := by
        revert hm; cases n.metaData.isEmpty <;> simp
      simp only [formatMessage, hm', Bool.false_eq_true, if_false, string_data_append,
        hesc, List.append_assoc]
      exact factor_prepend _ (factor_here _ _)
  · rcases List.mem_cons.mp hs₁ with h₂ | hs₂
    · subst h₂
      by_cases hm : n.metaData.isEmpty = true
      · simp only [formatMessage, hm, if_true, string_data_append, hesc, List.append_assoc]
        exact factor_prepend _ (factor_prepend _ (factor_prepend _ (factor_here _ _)))
      · have hm' : n.metaData.isEmpty = false := by
          revert hm; cases n.metaData.isEmpty <;> simp
        simp only [formatMessage, hm', Bool.false_eq_true, if_false, string_data_append,
          hesc, List.append_assoc]
        exact factor_prepend _ (factor_prepend _ (factor_prepend _ (factor_here _ _)))
    · unfold renderedMetaValues at hs₂
      by_cases hm : n.metaData.isEmpty = true
      · rw [if_pos hm] at hs₂
        exact absurd hs₂ (List.not_mem_nil s)
      · have hm' : n.metaData.isEmpty = false := by
          revert hm; cases n.metaData.isEmpty <;> simp
        rw [if_neg hm] at hs₂
        obtain ⟨f, hf, hfv⟩ := List.mem_filterMap.mp hs₂
        obtain ⟨a, b, hab⟩ :=
          metaExtras_factor n.metaData s (metaFields n.type) "" ⟨f, hf, hfv⟩
        simp only [formatMessage, hm', Bool.false_eq_true, if_false, string_data_append,
          hesc, List.append_assoc]
        refine factor_prepend _ (factor_prepend _ (factor_prepend _ (factor_prepend _
          (factor_prepend _ ?_))))
        exact factor_append _ ⟨a, b, hab⟩

/-! ## Witnesses: the theorems with hypotheses, applied at concrete inputs -/

theorem disabled_channel_never_dispatched_witness :
    "u1" ∉ (processNotificationEvent envC2 (.wellFormed eventC2)).2.telegramInvocations
      ∧ (processNotificationEvent envC2 (.wellFormed eventC2)).2.created = [] :=
  disabled_channel_never_dispatched envC2 eventC2 "u1" [settingC2] rfl (by decide)

theorem overdue_creator_no_independent_dedup_witness :
    countOverdueFor (checkOverdueTasks envC4 storeC4).1 taskC4.createdBy taskC4.id
      = countOverdueFor storeC4 taskC4.createdBy taskC4.id + 1 :=
  overdue_creator_no_independent_dedup envC4 storeC4 taskC4 "a1" [overdueSetting "a1"]
    rfl rfl rfl (by decide) (by decide)

theorem markAsRead_idempotent_witness :
    (serviceMarkAsRead [notifC5] "n1" "u1" 5).1 = .ok
      ∧ ((serviceMarkAsRead [notifC5] "n1" "u1" 5).2).find? (fun m => m.id == "n1")
          = some { notifC5 with status := NotificationStatusRead, readAt := some 5 }
      ∧ serviceMarkAsRead (serviceMarkAsRead [notifC5] "n1" "u1" 5).2 "n1" "u1" 9
          = (.ok, (serviceMarkAsRead [notifC5] "n1" "u1" 5).2) :=
  markAsRead_idempotent [notifC5] "n1" "u1" notifC5 5 9 (by decide) rfl rfl

theorem delete_is_soft_and_frame_witness :
    (serviceDelete [notifC5] "n1" "u1").1 = .ok
      ∧ ((serviceDelete [notifC5] "n1" "u1").2).length = ([notifC5] : Store).length
      ∧ ((serviceDelete [notifC5] "n1" "u1").2).find? (fun m => m.id == "n1")
          = some { notifC5 with status := NotificationStatusDeleted } := by
  have h := delete_is_soft_and_frame [notifC5] "n1" "u1" notifC5 (by decide) rfl
  exact ⟨h.1, h.2.1, h.2.2.1⟩

theorem formatMessage_escapes_user_text_witness :
    ∃ pre post, (formatMessage notifC8 { id := "u1" }).data
      = pre ++ escapeChars ("T[1]" : String).data ++ post :=
  ((formatMessage_escapes_user_text notifC8 { id := "u1" }) "T[1]" (by decide)).1

theorem digest_empty_tasks_no_output_witness :
    (sendDailyDigests envC9 []).1.filter (fun n => n.userId == "u1")
      = ([] : Store).filter (fun n => n.userId == "u1") :=
  (digest_empty_tasks_no_output envC9 [] "u1" rfl).1

theorem missing_notification_panics_witness :
    repoGetByID [] "n1" = .ok none
      ∧ serviceMarkAsRead [] "n1" "u1" 0 = (.nilPanic, [])
      ∧ serviceGetByID [] "n1" "u1" = (.nilPanic, none)
      ∧ serviceDelete [] "n1" "u1" = (.nilPanic, [])
      ∧ (serviceMarkAsRead [] "n1" "u1" 0).1 ≠ .svcErr ErrNotificationNotFound :=
  missing_notification_panics [] "n1" "u1" 0 rfl

end TaskManager
